import Mathlib

/-!
Verification of the convolution-family routines of `xchainer/routines/connection.cc`.

The file shallowly embeds the source:

* `GetConvOutDim` and `GetConvTransposeOutDim` are direct translations of the
  `int64_t` dimension arithmetic; C++ `/` (truncation toward zero) is `Int.tdiv`.
* Tensors (`Array` in the source) are embedded as the inductive `Arr`: an opaque
  leaf or a symbolic application of one of the external collaborators (device
  kernels, `AsConstant`, `Sum`).  The device kernels and `Sum` live outside the
  repository, so only their shape/dtype contracts are modelled, from the spec.
* The fixed-capacity per-axis sequences (`StackVector`) are embedded as
  `List Int`; indexing is total via `List.get?`, and an out-of-range read
  (undefined behaviour in the source) makes the enclosing computation `none`.
* Each operator returns its output array together with the op-node setup it
  registers (`SetUpOpNodes`): the op name, inputs, output and the backward
  functions, in source order.  A backward closure of the source returns the
  array produced by a full recursive call to one of the three operators; since
  an `Arr` does not contain op-node registrations, the closure is embedded by
  the array that call returns (`convOut`, `convTransposeOut`, `convGradWOut`),
  and bridge lemmas (`convTranspose_out_bridge`, `convGradW_out_bridge`,
  `conv_out_bridge`) identify these with the array component of the full calls.
-/

namespace Xchainer

/-- Source `internal::GetConvOutDim` (connection.cc:17-22); C++ `/` on `int64_t`
truncates toward zero, which is `Int.tdiv`. -/
def GetConvOutDim (inDim kernelSize stride pad : Int) (coverAll : Bool) : Int :=
  if coverAll then
    Int.tdiv (inDim + pad * 2 - kernelSize + stride - 1) stride + 1
  else
    Int.tdiv (inDim + pad * 2 - kernelSize) stride + 1

/-- Source `internal::GetConvTransposeOutDim` (connection.cc:24-29). -/
def GetConvTransposeOutDim (inDim kernelSize stride pad : Int) (coverAll : Bool) : Int :=
  if coverAll then
    stride * (inDim - 1) + kernelSize - stride + 1 - 2 * pad
  else
    stride * (inDim - 1) + kernelSize - 2 * pad

/-- Graph identifier (`GraphId` in the source): an opaque token. -/
abbrev GraphId := Nat

/-- Symbolic tensors.  A tensor is an opaque leaf (with an identity, a dtype
code and a shape) or the result of one of the external collaborators this core
delegates to: the three device kernels, `Array::AsConstant`, and `Sum`. -/
inductive Arr where
  | leaf (id dty : Nat) (sh : List Int)
  | deviceConv (x w : Arr) (b : Option Arr) (stride pad : List Int) (coverAll : Bool)
  | deviceConvTranspose (x w : Arr) (b : Option Arr) (stride pad outSize : List Int)
  | deviceConvGradWeight (dty : Nat) (wShape : List Int) (x gy : Arr) (stride pad : List Int)
      (coverAll : Bool)
  | asConstant (a : Arr) (ids : List GraphId)
  | sum (a : Arr) (axes : List Int) (keepDims : Bool)

/-- Modelled from the spec: shape of a `Sum` reduction (§6 reduction interface,
used only for the bias gradient): with `keepDims = false` the reduced axes are
removed, with `keepDims = true` they become 1. -/
def sumShape (sh : List Int) (axes : List Int) (keepDims : Bool) : List Int :=
  if keepDims then
    sh.enum.map fun iv => if (iv.1 : Int) ∈ axes then 1 else iv.2
  else
    (sh.enum.filter fun iv => ¬ (iv.1 : Int) ∈ axes).map fun iv => iv.2

/-- Modelled from the spec: spatial output dims of the device `Conv` kernel
(§6: the device must match the §4.1 dimension arithmetic exactly). -/
def convSpatialDims (xs ks stride pad : List Int) (coverAll : Bool) : List Int :=
  List.zipWith (fun xk sp => GetConvOutDim xk.1 xk.2 sp.1 sp.2 coverAll) (xs.zip ks)
    (stride.zip pad)

/-- Shape of a symbolic tensor.  Leaves carry their shape; the collaborator
nodes follow the external contracts of spec §6 (device kernels produce the
shapes prescribed by the dimension arithmetic / the requested output size, and
`AsConstant` preserves the shape). -/
def shape : Arr → List Int
  | .leaf _ _ sh => sh
  | .deviceConv x w _ stride pad c =>
      (shape x).take 1 ++ (shape w).take 1 ++
        convSpatialDims ((shape x).drop 2) ((shape w).drop 2) stride pad c
  | .deviceConvTranspose x w _ _ _ os => (shape x).take 1 ++ ((shape w).drop 1).take 1 ++ os
  | .deviceConvGradWeight _ ws _ _ _ _ _ => ws
  | .asConstant a _ => shape a
  | .sum a axes k => sumShape (shape a) axes k

/-- Dtype of a symbolic tensor (an opaque code; the device contract of §6:
conv outputs follow their input, the weight-gradient kernel produces the
requested dtype, `AsConstant` and `Sum` preserve it). -/
def dtype : Arr → Nat
  | .leaf _ d _ => d
  | .deviceConv x _ _ _ _ _ => dtype x
  | .deviceConvTranspose x _ _ _ _ _ => dtype x
  | .deviceConvGradWeight d _ _ _ _ _ _ => d
  | .asConstant a _ => dtype a
  | .sum a _ _ => dtype a

/-- Number of axes of a tensor (`Array::ndim`). -/
def arrNdim (a : Arr) : Nat := (shape a).length

/-- Numeric value of a tensor: `AsConstant` only affects graph bookkeeping, so
two tensors denote the same numbers exactly when they agree after erasing all
`asConstant` marks. -/
def stripConst : Arr → Arr
  | .leaf i d sh => .leaf i d sh
  | .deviceConv x w none s p c => .deviceConv (stripConst x) (stripConst w) none s p c
  | .deviceConv x w (some bb) s p c =>
      .deviceConv (stripConst x) (stripConst w) (some (stripConst bb)) s p c
  | .deviceConvTranspose x w none s p os =>
      .deviceConvTranspose (stripConst x) (stripConst w) none s p os
  | .deviceConvTranspose x w (some bb) s p os =>
      .deviceConvTranspose (stripConst x) (stripConst w) (some (stripConst bb)) s p os
  | .deviceConvGradWeight d ws x gy s p c =>
      .deviceConvGradWeight d ws (stripConst x) (stripConst gy) s p c
  | .asConstant a _ => stripConst a
  | .sum a ax k => .sum (stripConst a) ax k

/-- Backward function: from an output gradient and the set of graph ids to stop
gradient for, to an input gradient.  `none` embeds undefined behaviour
(an assertion failure or an out-of-range `StackVector`/`Shape` read). -/
abbrev GradFn := Arr → List GraphId → Option Arr

/-- Names of the three op nodes set up by this core. -/
inductive OpName where
  | conv
  | convTranspose
  | convGradWeight
deriving DecidableEq

/-- One `internal::SetUpOpNodes` call: the op name, the inputs, the output, and
one backward function per input, in the same order. -/
structure OpNodes where
  name : OpName
  inputs : List Arr
  out : Arr
  bwd : List GradFn

/-- Backward function registered for input `i` (out of range: the constant
`none` function). -/
def bwdAt (r : OpNodes) (i : Nat) : GradFn := r.bwd.getD i fun _ _ => none

/-- Source ConvTranspose lines 115-117: the loop filling `real_out_size` when
the caller gave no output size; iteration `i` reads `x.shape()[i+2]`,
`w.shape()[i+2]`, `stride[i]`, `pad[i]`.  `j` is the current loop index and `n`
the number of remaining iterations. -/
def buildDefaultOutSize (xShape wShape stride pad : List Int) : Nat → Nat → Option (List Int)
  | _, 0 => some []
  | j, n + 1 =>
    match xShape.get? (j + 2), wShape.get? (j + 2), stride.get? j, pad.get? j,
        buildDefaultOutSize xShape wShape stride pad (j + 1) n with
    | some xd, some wk, some st, some pd, some rest =>
        some (GetConvTransposeOutDim xd wk st pd false :: rest)
    | _, _, _, _, _ => none

/-- Source ConvTranspose lines 110-118: use the caller's output size as-is if
present, otherwise run the `GetConvTransposeOutDim(..., false)` loop over the
`x.ndim() - 2` spatial axes. -/
def resolveOutSize (xShape wShape stride pad : List Int) (outSize : Option (List Int)) :
    Option (List Int) :=
  match outSize with
  | some os => some os
  | none => buildDefaultOutSize xShape wShape stride pad 0 (xShape.length - 2)

/-- Source ConvTranspose lines 124-131, the `cover_all` detection loop,
embedded exactly as written: iteration `i` reads `xdim = x.shape()[i]` and
compares it with `GetConvOutDim(xdim, real_out_size[i], w.shape()[i + 2],
stride[i], pad[i])` — so `real_out_size[i]` lands in the kernel-size position,
`w.shape()[i+2]` in the stride position, `stride[i]` in the pad position, and
the integer `pad[i]` is converted to `bool` in the `cover_all` position.  An
out-of-range read is undefined behaviour, embedded as `none`.  `i` is the
current index and `n` the number of remaining iterations. -/
def detectCoverAllAux (xShape wShape realOutSize stride pad : List Int) :
    Nat → Nat → Option Bool
  | _, 0 => some false
  | i, n + 1 =>
    match xShape.get? i, realOutSize.get? i, wShape.get? (i + 2), stride.get? i,
        pad.get? i with
    | some xdim, some ro, some wk, some st, some pd =>
        if xdim ≠ GetConvOutDim xdim ro wk st (pd != 0) then some true
        else detectCoverAllAux xShape wShape realOutSize stride pad (i + 1) n
    | _, _, _, _, _ => none

/-- The full detection loop: `for (int8_t i = 0; i < x.ndim(); ++i)`. -/
def detectCoverAll (xShape wShape realOutSize stride pad : List Int) : Option Bool :=
  detectCoverAllAux xShape wShape realOutSize stride pad 0 xShape.length

/-- Source ConvGradW lines 43-48: the assertion block guarding the operator
(`ndim = w_shape.ndim() - 2` with `assert(ndim > 0)` and the four shape/length
assertions). -/
def convGradWAsserts (wShape : List Int) (x gy : Arr) (stride pad : List Int) : Bool :=
  decide (0 < (wShape.length : Int) - 2) &&
    decide ((arrNdim x : Int) = (wShape.length : Int) - 2 + 2) &&
    decide ((arrNdim gy : Int) = (wShape.length : Int) - 2 + 2) &&
    decide ((stride.length : Int) = (wShape.length : Int) - 2) &&
    decide ((pad.length : Int) = (wShape.length : Int) - 2)

/-- Source lines 88-91 and 146-149: the axes the bias gradient sums over,
`Axes axis{0}` followed by pushing every `i` with `2 <= i < gout.ndim()`. -/
def biasAxes (ndim : Nat) : List Int := 0 :: ((List.range ndim).drop 2).map Int.ofNat

/-- Array returned by a `Conv` call (the registrations it performs are not part
of the array, see the header note): `x.device().Conv(...)` at line 75. -/
def convOut (x w : Arr) (b : Option Arr) (stride pad : List Int) (coverAll : Bool) : Arr :=
  Arr.deviceConv x w b stride pad coverAll

/-- Array returned by a `ConvGradW` call: the assertion block of lines 43-48
followed by `x.device().ConvGradWeight(...)` at line 49. -/
def convGradWOut (wDtype : Nat) (wShape : List Int) (x gy : Arr) (stride pad : List Int)
    (coverAll : Bool) : Option Arr :=
  if convGradWAsserts wShape x gy stride pad then
    some (Arr.deviceConvGradWeight wDtype wShape x gy stride pad coverAll)
  else none

/-- Array returned by a `ConvTranspose` call: output-size resolution (lines
110-118), the device call (line 121), and the `cover_all` detection loop
(lines 124-131), whose out-of-range reads poison the call. -/
def convTransposeOut (x w : Arr) (b : Option Arr) (stride pad : List Int)
    (outSize : Option (List Int)) : Option Arr :=
  match resolveOutSize (shape x) (shape w) stride pad outSize with
  | none => none
  | some ros =>
    match detectCoverAll (shape x) (shape w) ros stride pad with
    | none => none
    | some _ => some (Arr.deviceConvTranspose x w b stride pad ros)

/-- Source `Conv` (connection.cc:68-99): the device call, then the three
backward closures, then `SetUpOpNodes("conv", ...)` with inputs `{x, w}` or
`{x, w, *b}` and the matching backward list. -/
def Conv (x w : Arr) (b : Option Arr) (stride pad : List Int) (coverAll : Bool) :
    Arr × OpNodes :=
  let out := convOut x w b stride pad coverAll
  let xBwd : GradFn := fun gout ids =>
    let outSize := (shape x).drop 2
    convTransposeOut gout (Arr.asConstant w ids) none stride pad (some outSize)
  let wBwd : GradFn := fun gout ids =>
    convGradWOut (dtype w) (shape w) (Arr.asConstant x ids) gout stride pad coverAll
  let bBwd : GradFn := fun gout _ =>
    some (Arr.sum gout (biasAxes (arrNdim gout)) false)
  match b with
  | some bb => (out, ⟨OpName.conv, [x, w, bb], out, [xBwd, wBwd, bBwd]⟩)
  | none => (out, ⟨OpName.conv, [x, w], out, [xBwd, wBwd]⟩)

/-- Result of a `ConvTranspose` call: the resolved output size and detected
`cover_all` (locals of the source function), the output array, and the op-node
setup. -/
structure CTCall where
  realOutSize : List Int
  coverAll : Bool
  out : Arr
  reg : OpNodes

/-- Source `ConvTranspose` (connection.cc:101-156): resolve the output size,
call the device, run the `cover_all` detection loop, then set up
`"conv_transpose"` with inputs `{x, w}` or `{x, w, *b}`.  Out-of-range reads in
the two loops are undefined behaviour, embedded as `none`. -/
def ConvTranspose (x w : Arr) (b : Option Arr) (stride pad : List Int)
    (outSize : Option (List Int)) : Option CTCall :=
  match resolveOutSize (shape x) (shape w) stride pad outSize with
  | none => none
  | some ros =>
    let out := Arr.deviceConvTranspose x w b stride pad ros
    match detectCoverAll (shape x) (shape w) ros stride pad with
    | none => none
    | some coverAll =>
      let xBwd : GradFn := fun gout ids =>
        some (convOut gout (Arr.asConstant w ids) none stride pad coverAll)
      let wBwd : GradFn := fun gout ids =>
        convGradWOut (dtype w) (shape w) gout (Arr.asConstant x ids) stride pad coverAll
      let bBwd : GradFn := fun gout _ =>
        some (Arr.sum gout (biasAxes (arrNdim gout)) false)
      match b with
      | some bb =>
          some ⟨ros, coverAll, out, ⟨OpName.convTranspose, [x, w, bb], out, [xBwd, wBwd, bBwd]⟩⟩
      | none => some ⟨ros, coverAll, out, ⟨OpName.convTranspose, [x, w], out, [xBwd, wBwd]⟩⟩

/-- Source `ConvGradW` (connection.cc:35-64): the assertion block, the device
call, the two backward closures (the x one re-asserts
`out_size.size() == stride.size()` at line 54), and
`SetUpOpNodes("conv-grad-weight", {x, gy}, ...)`. -/
def ConvGradW (wDtype : Nat) (wShape : List Int) (x gy : Arr) (stride pad : List Int)
    (coverAll : Bool) : Option (Arr × OpNodes) :=
  if convGradWAsserts wShape x gy stride pad then
    let out := Arr.deviceConvGradWeight wDtype wShape x gy stride pad coverAll
    let xBwd : GradFn := fun gout ids =>
      let outSize := (shape x).drop 2
      if outSize.length = stride.length then
        convTransposeOut (Arr.asConstant gy ids) gout none stride pad (some outSize)
      else none
    let gyBwd : GradFn := fun gout ids =>
      some (convOut (Arr.asConstant x ids) gout none stride pad coverAll)
    some (out, ⟨OpName.convGradWeight, [x, gy], out, [xBwd, gyBwd]⟩)
  else none

/-! Bridge lemmas: the array component of a full operator call coincides with
the closure-level embedding of that call. -/

theorem conv_out_bridge (x w : Arr) (b : Option Arr) (s p : List Int) (c : Bool) :
    (Conv x w b s p c).1 = convOut x w b s p c := by
  cases b <;> rfl

theorem convGradW_out_bridge (d : Nat) (ws : List Int) (x gy : Arr) (s p : List Int)
    (c : Bool) :
    (ConvGradW d ws x gy s p c).map Prod.fst = convGradWOut d ws x gy s p c := by
  unfold ConvGradW convGradWOut
  split <;> rfl

theorem convTranspose_out_bridge (x w : Arr) (b : Option Arr) (s p : List Int)
    (os : Option (List Int)) :
    (ConvTranspose x w b s p os).map CTCall.out = convTransposeOut x w b s p os := by
  unfold ConvTranspose convTransposeOut
  cases hros : resolveOutSize (shape x) (shape w) s p os
  · rfl
  · rename_i ros
    dsimp only
    cases hca : detectCoverAll (shape x) (shape w) ros s p
    · rfl
    · cases b <;> rfl

/-! Arithmetic helpers for the truncating `int64_t` division of the source. -/

theorem tdiv_ofNat (A B : Nat) : Int.tdiv (A : Int) (B : Int) = ((A / B : Nat) : Int) := rfl

theorem tdiv_bounds (a b : Int) (ha : 0 ≤ a) (hb : 0 < b) :
    b * Int.tdiv a b ≤ a ∧ a < b * Int.tdiv a b + b := by
  lift a to ℕ using ha with A
  lift b to ℕ using hb.le with B
  have hB : 0 < B := by exact_mod_cast hb
  have h1 : B * (A / B) + A % B = A := Nat.div_add_mod A B
  have h2 : A % B < B := Nat.mod_lt _ hB
  rw [tdiv_ofNat]
  push_cast
  zify at h1 h2
  have h3 : (0 : Int) ≤ (A : Int) % (B : Int) := Int.emod_nonneg _ (by exact_mod_cast hB.ne')
  constructor <;> linarith

theorem tdiv_mul_of_emod_eq_zero (a b : Int) (ha : 0 ≤ a) (hb : 0 < b)
    (h : a % b = 0) : b * Int.tdiv a b = a := by
  lift a to ℕ using ha with A
  lift b to ℕ using hb.le with B
  have hAB : A % B = 0 := by exact_mod_cast h
  have hdvd : B ∣ A := Nat.dvd_of_mod_eq_zero hAB
  rw [tdiv_ofNat]
  exact_mod_cast Nat.mul_div_cancel' hdvd

/-- C3: for non-negative operands with positive stride (the precondition the
spec names for the division to be valid), `GetConvOutDim` computes the literal
truncating-division formulas of the source, the `cover_all = false` branch is
floor division (conjuncts 3-4: `out - 1` is the greatest integer with
`s * (out - 1) ≤ in + 2*pad - kernel`), the `cover_all = true` branch is
ceiling division (conjuncts 5-6: `out - 1` is the least integer with
`in + 2*pad - kernel ≤ s * (out - 1)`), and `GetConvTransposeOutDim` computes
the two closed-form expressions of the claim. -/
theorem claim3_dimension_formulas (inDim k s p : Int)
    (hin : 0 ≤ inDim) (hk : 0 ≤ k) (hs : 0 < s) (hp : 0 ≤ p)
    (hvalid : k ≤ inDim + 2 * p) :
    GetConvOutDim inDim k s p false = Int.tdiv (inDim + p * 2 - k) s + 1 ∧
    GetConvOutDim inDim k s p true = Int.tdiv (inDim + p * 2 - k + s - 1) s + 1 ∧
    s * (GetConvOutDim inDim k s p false - 1) ≤ inDim + 2 * p - k ∧
    inDim + 2 * p - k < s * (GetConvOutDim inDim k s p false - 1) + s ∧
    inDim + 2 * p - k ≤ s * (GetConvOutDim inDim k s p true - 1) ∧
    s * (GetConvOutDim inDim k s p true - 1) < inDim + 2 * p - k + s ∧
    GetConvTransposeOutDim inDim k s p true = s * (inDim - 1) + k - s + 1 - 2 * p ∧
    GetConvTransposeOutDim inDim k s p false = s * (inDim - 1) + k - 2 * p := by
  have hm : (0 : Int) ≤ inDim + p * 2 - k := by linarith
  have hm' : (0 : Int) ≤ inDim + p * 2 - k + s - 1 := by linarith
  have hb1 := tdiv_bounds (inDim + p * 2 - k) s hm hs
  have hb2 := tdiv_bounds (inDim + p * 2 - k + s - 1) s hm' hs
  refine ⟨by simp [GetConvOutDim], by simp [GetConvOutDim], ?_, ?_, ?_, ?_,
    by simp [GetConvTransposeOutDim], by simp [GetConvTransposeOutDim]⟩ <;>
    simp only [GetConvOutDim, if_true, Bool.false_eq_true, if_false, add_sub_cancel_right] <;>
    linarith [hb1.1, hb1.2, hb2.1, hb2.2]

/-- C3 witness: the formulas instantiated at `in = 5, kernel = 3, stride = 2,
pad = 0`. -/
theorem claim3_dimension_formulas_witness :
    GetConvOutDim 5 3 2 0 false = Int.tdiv (5 + 0 * 2 - 3) 2 + 1 ∧
    GetConvOutDim 5 3 2 0 true = Int.tdiv (5 + 0 * 2 - 3 + 2 - 1) 2 + 1 ∧
    2 * (GetConvOutDim 5 3 2 0 false - 1) ≤ 5 + 2 * 0 - 3 ∧
    5 + 2 * 0 - 3 < 2 * (GetConvOutDim 5 3 2 0 false - 1) + 2 ∧
    5 + 2 * 0 - 3 ≤ 2 * (GetConvOutDim 5 3 2 0 true - 1) ∧
    2 * (GetConvOutDim 5 3 2 0 true - 1) < 5 + 2 * 0 - 3 + 2 ∧
    GetConvTransposeOutDim 5 3 2 0 true = 2 * (5 - 1) + 3 - 2 + 1 - 2 * 0 ∧
    GetConvTransposeOutDim 5 3 2 0 false = 2 * (5 - 1) + 3 - 2 * 0 :=
  claim3_dimension_formulas 5 3 2 0 (by norm_num) (by norm_num) (by norm_num)
    (by norm_num) (by norm_num)

/-- C2 counterexample: at the valid arguments `in = 4, kernel = 3, stride = 2,
pad = 0, cover_all = false` (they satisfy every validity condition of the
claim), the claimed round trip returns 3, not 4, so the claim as stated is
false. -/
theorem claim2_roundtrip_counterexample :
    (1 : Int) ≤ 4 ∧ (1 : Int) ≤ 3 ∧ (1 : Int) ≤ 2 ∧ (0 : Int) ≤ 0 ∧
    (3 : Int) ≤ 4 + 2 * 0 ∧
    GetConvTransposeOutDim (GetConvOutDim 4 3 2 0 false) 3 2 0 false = 3 ∧
    GetConvTransposeOutDim (GetConvOutDim 4 3 2 0 false) 3 2 0 false ≠ 4 := by
  decide

/-- C2 amended: the round trip
`ConvTransposeOutDim(ConvOutDim(in, k, s, p, c), k, s, p, c) = in` holds for
valid arguments precisely under the extra divisibility conditions the
counterexample forces: with `cover_all = false` when `stride` divides
`in + 2*pad - kernel`, and with `cover_all = true` when `stride = 1` or
`(in + 2*pad - kernel) % stride = 1`. -/
theorem claim2_roundtrip_amended (inDim k s p : Int) (c : Bool)
    (hin : 1 ≤ inDim) (hk : 1 ≤ k) (hs : 1 ≤ s) (hp : 0 ≤ p)
    (hvalid : k ≤ inDim + 2 * p)
    (hfalse : c = false → (inDim + 2 * p - k) % s = 0)
    (htrue : c = true → s = 1 ∨ (inDim + 2 * p - k) % s = 1) :
    GetConvTransposeOutDim (GetConvOutDim inDim k s p c) k s p c = inDim := by
  have hm : (0 : Int) ≤ inDim + p * 2 - k := by linarith
  have hs0 : (0 : Int) < s := by linarith
  cases c
  · have h0 : (inDim + 2 * p - k) % s = 0 := hfalse rfl
    have h0' : (inDim + p * 2 - k) % s = 0 := by
      rw [show inDim + p * 2 - k = inDim + 2 * p - k from by ring]
      exact h0
    have hq := tdiv_mul_of_emod_eq_zero (inDim + p * 2 - k) s hm hs0 h0'
    simp only [GetConvOutDim, GetConvTransposeOutDim, Bool.false_eq_true, if_false]
    linear_combination hq
  · rcases htrue rfl with hs1 | h1
    · subst hs1
      have hq := tdiv_mul_of_emod_eq_zero (inDim + p * 2 - k + 1 - 1) 1 (by linarith)
        (by norm_num) (Int.emod_one _)
      simp only [GetConvOutDim, GetConvTransposeOutDim, if_true]
      linear_combination hq
    · have hs2 : (2 : Int) ≤ s := by
        by_contra hcon
        push_neg at hcon
        have he : s = 1 := by omega
        rw [he, Int.emod_one] at h1
        norm_num at h1
      have hdvd : (inDim + p * 2 - k + s - 1) % s = 0 := by
        have e1 : inDim + p * 2 - k + s - 1 = inDim + 2 * p - k - 1 + s * 1 := by ring
        have h1s : (1 : Int) % s = 1 := Int.emod_eq_of_lt (by norm_num) (by linarith)
        rw [e1, Int.add_mul_emod_self_left, Int.sub_emod, h1, h1s]
        norm_num
      have hq := tdiv_mul_of_emod_eq_zero (inDim + p * 2 - k + s - 1) s (by linarith) hs0 hdvd
      simp only [GetConvOutDim, GetConvTransposeOutDim, if_true]
      linear_combination hq

/-- C2 amended witness: the round trip at `in = 5, kernel = 3, stride = 2,
pad = 0, cover_all = false`, where `2` divides `5 + 0 - 3`. -/
theorem claim2_roundtrip_amended_witness :
    GetConvTransposeOutDim (GetConvOutDim 5 3 2 0 false) 3 2 0 false = 5 :=
  claim2_roundtrip_amended 5 3 2 0 false (by norm_num) (by norm_num) (by norm_num)
    (by norm_num) (by norm_num) (fun _ => by decide) (fun h => by cases h)

/-- C1: the cover-all inference is wrong in the code.  At the spec's own §8
scenario (`x` of shape (1,3,5,5), `w` of shape (4,3,3,3), stride (1,1), pad
(0,0)) the `cover_all = false` transpose formula gives output size (7,7), yet
the detection loop — run either on the explicit output size (7,7) or on the
default-resolved one — infers `cover_all = true`, because at `i = 0` it
compares the batch size `x.shape()[0] = 1` with
`GetConvOutDim(1, 7, 3, 1, false) = 0` instead of comparing spatial axes with
the forward dimension of the resolved output size. -/
theorem claim1_cover_all_inference_diverges :
    GetConvTransposeOutDim 5 3 1 0 false = 7 ∧
    resolveOutSize [1, 3, 5, 5] [4, 3, 3, 3] [1, 1] [0, 0] none = some [7, 7] ∧
    detectCoverAll [1, 3, 5, 5] [4, 3, 3, 3] [7, 7] [1, 1] [0, 0] = some true ∧
    (ConvTranspose (Arr.leaf 0 0 [1, 3, 5, 5]) (Arr.leaf 1 0 [4, 3, 3, 3]) none [1, 1]
        [0, 0] (some [7, 7])).map CTCall.coverAll = some true ∧
    (ConvTranspose (Arr.leaf 0 0 [1, 3, 5, 5]) (Arr.leaf 1 0 [4, 3, 3, 3]) none [1, 1]
        [0, 0] none).map CTCall.coverAll = some true :=
  ⟨by decide, by decide, by decide, rfl, rfl⟩

/-- C10: with `x.ndim = 3` and per-axis sequences of the matching length
`x.ndim - 2 = 1`, the detection loop can run past the end of
`real_out_size`/`stride`/`pad` (first two conjuncts: the comparison agrees at
`i = 0`, so iteration `i = 1` reads index 1 of the one-element sequences and
the total embedding returns `none`, poisoning the whole `ConvTranspose` call);
and the boolean the loop passes in `GetConvOutDim`'s `cover_all` position is
`pad[i] != 0`: changing only `pad[0]` from 0 to 7 flips that boolean and the
loop instead stops at `i = 0` with `cover_all = true` (last conjunct). -/
theorem claim10_detection_out_of_range :
    detectCoverAll [5, 2, 6] [2, 4, 2] [2] [3] [0] = none ∧
    ConvTranspose (Arr.leaf 0 0 [5, 2, 6]) (Arr.leaf 1 0 [2, 4, 2]) none [3] [0]
        (some [2]) = none ∧
    detectCoverAll [5, 2, 6] [2, 4, 2] [2] [3] [7] = some true :=
  ⟨by decide, rfl, by decide⟩

/-- Entry `i` of the list built by the default-output-size loop started at
index `j` with `n` iterations left. -/
theorem buildDefaultOutSize_get? (xs ws s p : List Int) :
    ∀ (n j : Nat) (ros : List Int),
      buildDefaultOutSize xs ws s p j n = some ros →
      ros.length = n ∧ ∀ i, i < n →
        ros.get? i =
          match xs.get? (j + i + 2), ws.get? (j + i + 2), s.get? (j + i), p.get? (j + i) with
          | some xd, some wk, some st, some pd =>
              some (GetConvTransposeOutDim xd wk st pd false)
          | _, _, _, _ => none := by
  intro n
  induction n with
  | zero =>
    intro j ros h
    simp only [buildDefaultOutSize, Option.some.injEq] at h
    subst h
    exact ⟨rfl, fun i hi => absurd hi (Nat.not_lt_zero i)⟩
  | succ n ih =>
    intro j ros h
    simp only [buildDefaultOutSize] at h
    rcases hxd : xs.get? (j + 2) with _ | xd <;> rw [hxd] at h <;>
      [exact absurd h (by simp); skip]
    rcases hwk : ws.get? (j + 2) with _ | wk <;> rw [hwk] at h <;>
      [exact absurd h (by simp); skip]
    rcases hst : s.get? j with _ | st <;> rw [hst] at h <;>
      [exact absurd h (by simp); skip]
    rcases hpd : p.get? j with _ | pd <;> rw [hpd] at h <;>
      [exact absurd h (by simp); skip]
    rcases hrest : buildDefaultOutSize xs ws s p (j + 1) n with _ | rest <;>
      rw [hrest] at h <;> [exact absurd h (by simp); skip]
    simp only [Option.some.injEq] at h
    subst h
    obtain ⟨hlen, hget⟩ := ih (j + 1) rest hrest
    refine ⟨by simp [hlen], fun i hi => ?_⟩
    cases i with
    | zero =>
      simp only [List.get?, Nat.add_zero]
      rw [hxd, hwk, hst, hpd]
    | succ i =>
      have hi' : i < n := by omega
      have e2 : j + 1 + i + 2 = j + (i + 1) + 2 := by omega
      have e1 : j + 1 + i = j + (i + 1) := by omega
      have := hget i hi'
      rw [e2, e1] at this
      simpa only [List.get?] using this

/-- C8: output-size resolution of `ConvTranspose`.  An explicit output size is
used unchanged; otherwise the resolved size has one entry per spatial axis
(`x.ndim - 2` of them) and entry `i` is
`GetConvTransposeOutDim(x.shape[i+2], w.shape[i+2], stride[i], pad[i], false)`
whenever those reads are in range.  The last conjunct ties this to the
operator: any successful `ConvTranspose` call resolves its output size through
`resolveOutSize`. -/
theorem claim8_out_size_resolution (xs ws s p : List Int) :
    (∀ os, resolveOutSize xs ws s p (some os) = some os) ∧
    (∀ ros, resolveOutSize xs ws s p none = some ros →
      ros.length = xs.length - 2 ∧ ∀ i, i < xs.length - 2 →
        ros.get? i =
          match xs.get? (i + 2), ws.get? (i + 2), s.get? i, p.get? i with
          | some xd, some wk, some st, some pd =>
              some (GetConvTransposeOutDim xd wk st pd false)
          | _, _, _, _ => none) ∧
    (∀ (x w : Arr) (b : Option Arr) (os : Option (List Int)) (r : CTCall),
      ConvTranspose x w b s p os = some r →
      resolveOutSize (shape x) (shape w) s p os = some r.realOutSize) := by
  refine ⟨fun os => rfl, fun ros h => ?_, fun x w b os r h => ?_⟩
  · obtain ⟨hlen, hget⟩ := buildDefaultOutSize_get? xs ws s p (xs.length - 2) 0 ros h
    refine ⟨hlen, fun i hi => ?_⟩
    have := hget i hi
    simpa only [Nat.zero_add] using this
  · unfold ConvTranspose at h
    rcases hros : resolveOutSize (shape x) (shape w) s p os with _ | ros <;> rw [hros] at h
    · exact absurd h (by simp)
    · dsimp only at h
      rcases hca : detectCoverAll (shape x) (shape w) ros s p with _ | ca <;> rw [hca] at h
      · exact absurd h (by simp)
      · dsimp only at h
        cases b <;> simp only [Option.some.injEq] at h <;> rw [← h]

/-- C8 witness: the default resolution for the spec §8 scenario, whose first
entry is the transpose formula at axis 0. -/
theorem claim8_out_size_resolution_witness :
    resolveOutSize [1, 3, 5, 5] [4, 3, 3, 3] [1, 1] [0, 0] (some [9, 9]) = some [9, 9] ∧
    resolveOutSize [1, 3, 5, 5] [4, 3, 3, 3] [1, 1] [0, 0] none = some [7, 7] ∧
    ([7, 7] : List Int).length = ([1, 3, 5, 5] : List Int).length - 2 ∧
    ([7, 7] : List Int).get? 0 = some (GetConvTransposeOutDim 5 3 1 0 false) := by
  refine ⟨(claim8_out_size_resolution [1, 3, 5, 5] [4, 3, 3, 3] [1, 1] [0, 0]).1 [9, 9],
    by decide, ?_, ?_⟩
  · exact ((claim8_out_size_resolution [1, 3, 5, 5] [4, 3, 3, 3] [1, 1] [0, 0]).2.1 [7, 7]
      (by decide)).1
  · have := ((claim8_out_size_resolution [1, 3, 5, 5] [4, 3, 3, 3] [1, 1] [0, 0]).2.1 [7, 7]
      (by decide)).2 0 (by decide)
    simpa using this

/-- C4: the gradient function `Conv` registers for `x` (index 0 of the op-node
setup) returns, for any output gradient `g` and stop-gradient set `ids`, the
array of `ConvTranspose(g, w.AsConstant(ids), no bias, stride, pad,
out_size = x's spatial shape)`; and — the spec's triangle-consistency
instance, with `g` standing for the ones tensor — its numeric value (identical
modulo `AsConstant` erasure) equals directly calling
`ConvTranspose(g, w, out_size = x.shape[2:])` with the same stride and pad. -/
theorem claim4_conv_x_gradient (x w : Arr) (b : Option Arr) (s p : List Int) (c : Bool)
    (g : Arr) (ids : List GraphId) :
    bwdAt (Conv x w b s p c).2 0 g ids =
      (ConvTranspose g (Arr.asConstant w ids) none s p (some ((shape x).drop 2))).map
        CTCall.out ∧
    (bwdAt (Conv x w b s p c).2 0 g ids).map stripConst =
      (ConvTranspose g w none s p (some ((shape x).drop 2))).map
        (fun r => stripConst (CTCall.out r)) := by
  have hbwd : bwdAt (Conv x w b s p c).2 0 g ids =
      convTransposeOut g (Arr.asConstant w ids) none s p (some ((shape x).drop 2)) := by
    cases b <;> rfl
  constructor
  · rw [convTranspose_out_bridge, hbwd]
  · rw [hbwd]
    unfold convTransposeOut ConvTranspose
    simp only [resolveOutSize, shape]
    cases hca : detectCoverAll (shape g) (shape w) ((shape x).drop 2) s p <;>
      cases b <;> simp [hca, stripConst]

/-- C5: under the assertion block's success, `ConvGradW` registers for `x` a
gradient function returning the array of
`ConvTranspose(gy.AsConstant(ids), g, no bias, stride, pad,
out_size = x's spatial shape)` (`g` in the weight position), and for `gy` one
returning the array of `Conv(x.AsConstant(ids), g, no bias, stride, pad,
cover_all)` with the call's own `cover_all`. -/
theorem claim5_convgradw_gradients (d : Nat) (ws : List Int) (x gy : Arr)
    (s p : List Int) (c : Bool) (h : convGradWAsserts ws x gy s p = true) :
    ∃ out reg, ConvGradW d ws x gy s p c = some (out, reg) ∧
      ∀ g ids,
        bwdAt reg 0 g ids =
          (ConvTranspose (Arr.asConstant gy ids) g none s p
            (some ((shape x).drop 2))).map CTCall.out ∧
        bwdAt reg 1 g ids = some ((Conv (Arr.asConstant x ids) g none s p c).1) := by
  have hlen : ((shape x).drop 2).length = s.length := by
    have h' := h
    simp only [convGradWAsserts, Bool.and_eq_true, decide_eq_true_eq, arrNdim] at h'
    obtain ⟨⟨⟨⟨h1, h2⟩, h3⟩, h4⟩, h5⟩ := h'
    rw [List.length_drop]
    omega
  rcases hsome : ConvGradW d ws x gy s p c with _ | ⟨out, reg⟩
  · exact absurd (by simpa only [ConvGradW, h, if_true] using hsome) (by simp)
  · simp only [ConvGradW, h, if_true, Option.some.injEq, Prod.mk.injEq] at hsome
    obtain ⟨ho, hr⟩ := hsome
    subst hr
    refine ⟨out, _, rfl, fun g ids => ⟨?_, ?_⟩⟩
    · rw [convTranspose_out_bridge]
      show (if ((shape x).drop 2).length = s.length then
          convTransposeOut (Arr.asConstant gy ids) g none s p (some ((shape x).drop 2))
        else none) = _
      rw [if_pos hlen]
    · rw [conv_out_bridge]
      rfl

/-- C5 witness: a valid 2-D instance (weight shape (4,3,3,3), `x` and `gy`
4-dimensional, stride and pad of length 2). -/
theorem claim5_convgradw_gradients_witness :
    convGradWAsserts [4, 3, 3, 3] (Arr.leaf 0 0 [1, 3, 5, 5]) (Arr.leaf 1 0 [1, 4, 3, 3])
      [1, 1] [0, 0] = true ∧
    ∃ out reg, ConvGradW 0 [4, 3, 3, 3] (Arr.leaf 0 0 [1, 3, 5, 5])
        (Arr.leaf 1 0 [1, 4, 3, 3]) [1, 1] [0, 0] false = some (out, reg) ∧
      ∀ g ids,
        bwdAt reg 0 g ids =
          (ConvTranspose (Arr.asConstant (Arr.leaf 1 0 [1, 4, 3, 3]) ids) g none [1, 1]
            [0, 0] (some ((shape (Arr.leaf 0 0 [1, 3, 5, 5])).drop 2))).map CTCall.out ∧
        bwdAt reg 1 g ids =
          some ((Conv (Arr.asConstant (Arr.leaf 0 0 [1, 3, 5, 5]) ids) g none [1, 1]
            [0, 0] false).1) :=
  ⟨by decide, claim5_convgradw_gradients 0 [4, 3, 3, 3] (Arr.leaf 0 0 [1, 3, 5, 5])
    (Arr.leaf 1 0 [1, 4, 3, 3]) [1, 1] [0, 0] false (by decide)⟩

/-- C6: the gradient function `ConvTranspose` registers for `w` (index 1)
returns the array of `ConvGradW(w.dtype, w.shape, g, x.AsConstant(ids),
stride, pad, cover_all)` with the detected `cover_all` flag — the operand
order is swapped relative to `Conv`'s weight gradient: the output gradient `g`
sits in the first tensor position and `x` as constant in the second. -/
theorem claim6_convtranspose_w_gradient (x w : Arr) (b : Option Arr) (s p : List Int)
    (os : Option (List Int)) (ros : List Int) (ca : Bool)
    (hros : resolveOutSize (shape x) (shape w) s p os = some ros)
    (hca : detectCoverAll (shape x) (shape w) ros s p = some ca) :
    ∃ r, ConvTranspose x w b s p os = some r ∧ r.coverAll = ca ∧
      ∀ g ids,
        bwdAt r.reg 1 g ids =
          (ConvGradW (dtype w) (shape w) g (Arr.asConstant x ids) s p ca).map Prod.fst := by
  unfold ConvTranspose
  rw [hros]
  dsimp only
  rw [hca]
  cases b <;> exact ⟨_, rfl, rfl, fun g ids => by rw [convGradW_out_bridge]; rfl⟩

/-- C6 witness: the spec §8 scenario, where the resolved output size is (7,7)
and the detected flag is `true`. -/
theorem claim6_convtranspose_w_gradient_witness :
    ∃ r, ConvTranspose (Arr.leaf 0 0 [1, 3, 5, 5]) (Arr.leaf 1 0 [4, 3, 3, 3]) none
        [1, 1] [0, 0] none = some r ∧ r.coverAll = true ∧
      ∀ g ids,
        bwdAt r.reg 1 g ids =
          (ConvGradW (dtype (Arr.leaf 1 0 [4, 3, 3, 3])) (shape (Arr.leaf 1 0 [4, 3, 3, 3]))
            g (Arr.asConstant (Arr.leaf 0 0 [1, 3, 5, 5]) ids) [1, 1] [0, 0] true).map
            Prod.fst :=
  claim6_convtranspose_w_gradient (Arr.leaf 0 0 [1, 3, 5, 5]) (Arr.leaf 1 0 [4, 3, 3, 3])
    none [1, 1] [0, 0] none [7, 7] true (by decide) (by decide)

/-- C7: when a bias is supplied, both `Conv` and `ConvTranspose` register as
bias gradient (index 2) the function `g ↦ Sum(g, {0} ∪ {2, …, g.ndim - 1},
keep_dims = false)` — reduce the batch axis and all spatial axes, keep the
channel axis; for a 4-dimensional gradient the axes are (0,2,3) and a shape
(N,C,H,W) reduces to (C). -/
theorem claim7_bias_gradient (x w bb : Arr) (s p : List Int) (c : Bool)
    (os : Option (List Int)) (g : Arr) (ids : List GraphId) :
    bwdAt (Conv x w (some bb) s p c).2 2 g ids =
      some (Arr.sum g (biasAxes (arrNdim g)) false) ∧
    (∀ ros ca, resolveOutSize (shape x) (shape w) s p os = some ros →
      detectCoverAll (shape x) (shape w) ros s p = some ca →
      ∃ r, ConvTranspose x w (some bb) s p os = some r ∧
        bwdAt r.reg 2 g ids = some (Arr.sum g (biasAxes (arrNdim g)) false)) ∧
    biasAxes 4 = [0, 2, 3] ∧
    (∀ (a : Arr) (n ch hd wd : Int), shape a = [n, ch, hd, wd] →
      shape (Arr.sum a (biasAxes (arrNdim a)) false) = [ch]) := by
  refine ⟨rfl, fun ros ca hros hca => ?_, by decide, fun a n ch hd wd hsh => ?_⟩
  · unfold ConvTranspose
    rw [hros]
    dsimp only
    rw [hca]
    exact ⟨_, rfl, rfl⟩
  · simp only [shape, arrNdim, hsh]
    rfl

/-- C7 witness: the bias gradient of the spec §8 scenario with bias, applied
to a concrete 4-dimensional gradient leaf. -/
theorem claim7_bias_gradient_witness :
    bwdAt (Conv (Arr.leaf 0 0 [1, 3, 5, 5]) (Arr.leaf 1 0 [4, 3, 3, 3])
        (some (Arr.leaf 2 0 [4])) [1, 1] [0, 0] false).2 2 (Arr.leaf 3 0 [1, 4, 3, 3]) [] =
      some (Arr.sum (Arr.leaf 3 0 [1, 4, 3, 3])
        (biasAxes (arrNdim (Arr.leaf 3 0 [1, 4, 3, 3]))) false) ∧
    (∃ r, ConvTranspose (Arr.leaf 0 0 [1, 3, 5, 5]) (Arr.leaf 1 0 [4, 3, 3, 3])
        (some (Arr.leaf 2 0 [4])) [1, 1] [0, 0] none = some r ∧
      bwdAt r.reg 2 (Arr.leaf 3 0 [1, 4, 3, 3]) [] =
        some (Arr.sum (Arr.leaf 3 0 [1, 4, 3, 3])
          (biasAxes (arrNdim (Arr.leaf 3 0 [1, 4, 3, 3]))) false)) ∧
    shape (Arr.sum (Arr.leaf 3 0 [1, 4, 3, 3])
      (biasAxes (arrNdim (Arr.leaf 3 0 [1, 4, 3, 3]))) false) = [4] := by
  have h := claim7_bias_gradient (Arr.leaf 0 0 [1, 3, 5, 5]) (Arr.leaf 1 0 [4, 3, 3, 3])
    (Arr.leaf 2 0 [4]) [1, 1] [0, 0] false none (Arr.leaf 3 0 [1, 4, 3, 3]) []
  exact ⟨h.1, h.2.1 [7, 7] true (by decide) (by decide),
    h.2.2.2 (Arr.leaf 3 0 [1, 4, 3, 3]) 1 4 3 3 rfl⟩

/-- C9: under the claim's preconditions (at least one spatial axis in the
weight shape, `x` and `gy` of matching dimensionality, stride and pad of the
spatial length), every assertion in `ConvGradW` holds: the assertion block
succeeds, the backward closure's `out_size.size() == stride.size()` assertion
holds, and the call does not take the assertion-failure branch. -/
theorem claim9_convgradw_preconditions (d : Nat) (ws : List Int) (x gy : Arr)
    (s p : List Int) (c : Bool)
    (h1 : 2 < ws.length) (h2 : arrNdim x = ws.length) (h3 : arrNdim gy = ws.length)
    (h4 : s.length + 2 = ws.length) (h5 : p.length + 2 = ws.length) :
    convGradWAsserts ws x gy s p = true ∧
    ((shape x).drop 2).length = s.length ∧
    (ConvGradW d ws x gy s p c).isSome = true := by
  have hA : convGradWAsserts ws x gy s p = true := by
    simp only [convGradWAsserts, Bool.and_eq_true, decide_eq_true_eq]
    refine ⟨⟨⟨⟨?_, ?_⟩, ?_⟩, ?_⟩, ?_⟩ <;> omega
  refine ⟨hA, ?_, ?_⟩
  · have h2' : (shape x).length = ws.length := h2
    rw [List.length_drop]
    omega
  · simp [ConvGradW, hA]

/-- C9 witness: the preconditions and conclusions at the concrete valid
instance of the C5 witness. -/
theorem claim9_convgradw_preconditions_witness :
    convGradWAsserts [4, 3, 3, 3] (Arr.leaf 0 0 [1, 3, 5, 5]) (Arr.leaf 1 0 [1, 4, 3, 3])
      [1, 1] [0, 0] = true ∧
    ((shape (Arr.leaf 0 0 [1, 3, 5, 5])).drop 2).length = ([1, 1] : List Int).length ∧
    (ConvGradW 0 [4, 3, 3, 3] (Arr.leaf 0 0 [1, 3, 5, 5]) (Arr.leaf 1 0 [1, 4, 3, 3])
      [1, 1] [0, 0] false).isSome = true :=
  claim9_convgradw_preconditions 0 [4, 3, 3, 3] (Arr.leaf 0 0 [1, 3, 5, 5])
    (Arr.leaf 1 0 [1, 4, 3, 3]) [1, 1] [0, 0] false (by decide) (by decide) (by decide)
    (by decide) (by decide)

end Xchainer
